import Mathlib

/-!
Verification of the synthetism/circuit-breaker unit (src/src/circuit-breaker.unit.ts
and its variant with the hash-based id derivation).

The breaker keeps all its mutable fields in an injected key-value store under
the keys url, state, failures, lastFailure, successCount, openedAt.  We embed
that store as a record of optional fields (a missing key is none), and each
operation of the class as a pure function on the record; operations reading
the wall clock (Date.now()) take the current time as an explicit parameter.
-/

namespace CircuitBreaker

/-- The three circuit states of the TypeScript union type CircuitState. -/
inductive CircuitState where
  | CLOSED
  | OPEN
  | HALF_OPEN
deriving DecidableEq, Repr

/-- The immutable configuration held in the unit props after creation. -/
structure Config where
  failureThreshold : Nat
  timeoutMs : Int
  halfOpenSuccessThreshold : Nat
deriving DecidableEq, Repr

/-- The backing key-value store of one breaker: each field is one key, none
models an absent (or null) value, mirroring get returning undefined/null. -/
structure Store where
  url : Option String
  state : Option CircuitState
  failures : Option Nat
  lastFailure : Option Int
  successCount : Option Nat
  openedAt : Option Int
deriving DecidableEq, Repr

/-- The initial store contents written by createState inside create:
state CLOSED, failures 0, lastFailure null, successCount 0, openedAt null. -/
def initialStore (url : String) : Store :=
  { url := some url
    state := some .CLOSED
    failures := some 0
    lastFailure := none
    successCount := some 0
    openedAt := none }

/-- getCircuitState: read of the state key, defaulting to CLOSED (the
TypeScript reads get('state') ?? 'CLOSED'). -/
def getCircuitState (s : Store) : CircuitState :=
  s.state.getD .CLOSED

/-- resetCircuit: unconditionally writes state CLOSED, failures 0,
lastFailure null, successCount 0, openedAt null. -/
def resetCircuit (s : Store) : Store :=
  { s with
    state := some .CLOSED
    failures := some 0
    lastFailure := none
    successCount := some 0
    openedAt := none }

/-- openCircuit: writes state OPEN, openedAt Date.now(), successCount 0. -/
def openCircuit (now : Int) (s : Store) : Store :=
  { s with
    state := some .OPEN
    openedAt := some now
    successCount := some 0 }

/-- JavaScript truthiness of the number-or-absent openedAt value: absent
(null or undefined) and 0 are falsy, every other number is truthy. -/
def truthy : Option Int → Bool
  | none => false
  | some t => t != 0

/-- canProceed: returns the boolean answer together with the store after the
operation (the OPEN branch may transition to HALF_OPEN when the openedAt
value is truthy and now minus openedAt has reached timeoutMs). -/
def canProceed (cfg : Config) (now : Int) (s : Store) : Bool × Store :=
  match getCircuitState s with
  | .CLOSED => (true, s)
  | .OPEN =>
      if truthy s.openedAt ∧ cfg.timeoutMs ≤ now - s.openedAt.getD 0 then
        (true, { s with state := some .HALF_OPEN, successCount := some 0 })
      else
        (false, s)
  | .HALF_OPEN => (true, s)

/-- recordSuccess: in HALF_OPEN increments successCount and fully resets once
the half-open success threshold is reached; in CLOSED zeroes failures and
clears lastFailure; in OPEN does nothing. -/
def recordSuccess (cfg : Config) (s : Store) : Store :=
  match getCircuitState s with
  | .HALF_OPEN =>
      let successCount := s.successCount.getD 0 + 1
      let s1 := { s with successCount := some successCount }
      if cfg.halfOpenSuccessThreshold ≤ successCount then resetCircuit s1 else s1
  | .CLOSED => { s with failures := some 0, lastFailure := none }
  | .OPEN => s

/-- recordFailure: unconditionally increments failures and stamps
lastFailure with Date.now(); then, if the current state is HALF_OPEN, opens
the circuit, else if the incremented failures value has reached
failureThreshold, opens the circuit. -/
def recordFailure (cfg : Config) (now : Int) (s : Store) : Store :=
  let failures := s.failures.getD 0 + 1
  let s1 := { s with failures := some failures, lastFailure := some now }
  if getCircuitState s1 = .HALF_OPEN then
    openCircuit now s1
  else if cfg.failureThreshold ≤ failures then
    openCircuit now s1
  else
    s1

/-- The snapshot returned by getStats (the nested config object is the
breaker's Config value). -/
structure Stats where
  url : String
  state : CircuitState
  failures : Nat
  lastFailure : Option Int
  successCount : Nat
  openedAt : Option Int
  config : Config
deriving DecidableEq, Repr

/-- getStats: a pure read of the store (it only calls get, never set), with
counters defaulted to 0 when the key is absent. -/
def getStats (url : String) (cfg : Config) (s : Store) : Stats :=
  { url := url
    state := getCircuitState s
    failures := s.failures.getD 0
    lastFailure := s.lastFailure
    successCount := s.successCount.getD 0
    openedAt := s.openedAt
    config := cfg }

/-- A store holding no key at all (every read will fall back to its
default). -/
def emptyStore : Store :=
  { url := none
    state := none
    failures := none
    lastFailure := none
    successCount := none
    openedAt := none }

/-- A run of consecutive recordFailure calls, one per timestamp in the
list. -/
def recordFailures (cfg : Config) : List Int → Store → Store
  | [], s => s
  | t :: ts, s => recordFailures cfg ts (recordFailure cfg t s)

/-- A run of n consecutive recordSuccess calls. -/
def recordSuccesses (cfg : Config) : Nat → Store → Store
  | 0, s => s
  | n + 1, s => recordSuccesses cfg n (recordSuccess cfg s)

/-- The stores reachable from a freshly created breaker through the public
operations (canProceed, recordSuccess, recordFailure, resetCircuit), with
arbitrary clock readings. -/
inductive Reachable (cfg : Config) (url : String) : Store → Prop where
  | init : Reachable cfg url (initialStore url)
  | canProceedStep (s : Store) (now : Int) :
      Reachable cfg url s → Reachable cfg url (canProceed cfg now s).2
  | recordSuccessStep (s : Store) :
      Reachable cfg url s → Reachable cfg url (recordSuccess cfg s)
  | recordFailureStep (s : Store) (now : Int) :
      Reachable cfg url s → Reachable cfg url (recordFailure cfg now s)
  | resetStep (s : Store) :
      Reachable cfg url s → Reachable cfg url (resetCircuit s)

/-- The fully reset store contents: state CLOSED, both counters stored as 0,
both timestamps absent. -/
def FullyReset (s : Store) : Prop :=
  getCircuitState s = .CLOSED ∧ s.failures = some 0 ∧ s.successCount = some 0 ∧
    s.lastFailure = none ∧ s.openedAt = none

/-! ### The id derivation (safeId) of the hash-based variant -/

/-- ToInt32, the wrap of an integer into the signed 32-bit range, applied by
the JavaScript bitwise operators. -/
def toInt32 (n : Int) : Int :=
  let m := n % 4294967296
  if m < 2147483648 then m else m - 4294967296

/-- One loop iteration of the hash: hash = toInt32(toInt32(hash shifted left
by five) - hash + charCode) (the final "hash and hash" is the outer
toInt32). -/
def hashStep (h : Int) (c : Nat) : Int :=
  toInt32 (toInt32 (h * 32) - h + c)

/-- The UTF-16 code units of one character, as read by charCodeAt. -/
def utf16Units (c : Char) : List Nat :=
  let n := c.toNat
  if n < 65536 then [n]
  else
    let m := n - 65536
    [55296 + m / 1024, 56320 + m % 1024]

/-- The sequence of charCodeAt values of a string. -/
def jsCharCodes (s : String) : List Nat :=
  (s.toList.map utf16Units).flatten

/-- The whole hash loop over the url. -/
def jsHash (url : String) : Int :=
  (jsCharCodes url).foldl hashStep 0

/-- Base-16 digit extraction with explicit fuel, one digit per division by
16, most significant first — the digit production of toString(16). -/
def toHexCore : Nat → Nat → List Char → List Char
  | 0, _, ds => ds
  | fuel + 1, n, ds =>
      if n / 16 = 0 then Nat.digitChar (n % 16) :: ds
      else toHexCore fuel (n / 16) (Nat.digitChar (n % 16) :: ds)

/-- Math.abs(hash).toString(16): the lowercase hexadecimal digits of the
absolute value. -/
def toHex (n : Nat) : List Char :=
  toHexCore (n + 1) n []

/-- padStart(8, zero): left-pad the digit list with the character zero up to
length 8. -/
def padStart8 (l : List Char) : List Char :=
  List.replicate (8 - l.length) '0' ++ l

/-- safeId of the hash-based variant: the 32-bit string hash of the url,
made non-negative, printed in lowercase hex and left-padded to 8 chars. -/
def safeId (url : String) : String :=
  String.mk (padStart8 (toHex (jsHash url).natAbs))

/-- A character safe for the store's key namespace: a lowercase hex digit
(decimal digit or letter a to f). -/
def isSafeChar (c : Char) : Bool :=
  ('0' ≤ c && c ≤ '9') || ('a' ≤ c && c ≤ 'f')

/-! ### Theorems -/

/-- canProceed in CLOSED: allowed, store untouched. -/
theorem canProceed_closed (cfg : Config) (now : Int) (s : Store)
    (h : getCircuitState s = .CLOSED) :
    canProceed cfg now s = (true, s) := by
  unfold canProceed
  rw [h]

/-- canProceed in HALF_OPEN: allowed, store untouched. -/
theorem canProceed_halfopen (cfg : Config) (now : Int) (s : Store)
    (h : getCircuitState s = .HALF_OPEN) :
    canProceed cfg now s = (true, s) := by
  unfold canProceed
  rw [h]

/-- canProceed in OPEN, written as one conditional. -/
theorem canProceed_open (cfg : Config) (now : Int) (s : Store)
    (h : getCircuitState s = .OPEN) :
    canProceed cfg now s =
      if truthy s.openedAt ∧ cfg.timeoutMs ≤ now - s.openedAt.getD 0 then (true, { s with state := some .HALF_OPEN, successCount := some 0 }) else (false, s) := by
  unfold canProceed
  rw [h]

/-- recordSuccess in CLOSED: zeroes failures and clears lastFailure. -/
theorem recordSuccess_closed (cfg : Config) (s : Store)
    (h : getCircuitState s = .CLOSED) :
    recordSuccess cfg s = { s with failures := some 0, lastFailure := none } := by
  unfold recordSuccess
  rw [h]

/-- recordSuccess in OPEN: the store is untouched. -/
theorem recordSuccess_open (cfg : Config) (s : Store)
    (h : getCircuitState s = .OPEN) :
    recordSuccess cfg s = s := by
  unfold recordSuccess
  rw [h]

/-- recordSuccess in HALF_OPEN, written as one conditional. -/
theorem recordSuccess_halfopen (cfg : Config) (s : Store)
    (h : getCircuitState s = .HALF_OPEN) :
    recordSuccess cfg s =
      if cfg.halfOpenSuccessThreshold ≤ s.successCount.getD 0 + 1 then resetCircuit { s with successCount := some (s.successCount.getD 0 + 1) } else { s with successCount := some (s.successCount.getD 0 + 1) } := by
  unfold recordSuccess
  rw [h]

/-- recordFailure written as one conditional on the pre-state (the state key
is not changed by the failures and lastFailure writes, so reading the state
after them equals reading it before). -/
theorem recordFailure_eq (cfg : Config) (now : Int) (s : Store) :
    recordFailure cfg now s =
      if getCircuitState s = .HALF_OPEN then openCircuit now { s with failures := some (s.failures.getD 0 + 1), lastFailure := some now } else if cfg.failureThreshold ≤ s.failures.getD 0 + 1 then openCircuit now { s with failures := some (s.failures.getD 0 + 1), lastFailure := some now } else { s with failures := some (s.failures.getD 0 + 1), lastFailure := some now } :=
  rfl

/-- Invariant of the reachable stores: whenever the breaker is not in
CLOSED state, the stored failures count has already reached the failure
threshold (the breaker only leaves CLOSED through openCircuit, guarded by
the threshold comparison, and failures is never decreased outside
CLOSED). -/
theorem reachable_failures_ge (cfg : Config) (url : String) (s : Store)
    (h : Reachable cfg url s) :
    getCircuitState s ≠ .CLOSED → cfg.failureThreshold ≤ s.failures.getD 0 := by
  induction h with
  | init =>
      intro hs
      exact absurd rfl hs
  | canProceedStep s now hr ih =>
      rcases hst : getCircuitState s with _ | _ | _
      · rw [canProceed_closed cfg now s hst]
        exact ih
      · rw [canProceed_open cfg now s hst]
        split
        · intro _
          exact ih (by rw [hst]; decide)
        · exact ih
      · rw [canProceed_halfopen cfg now s hst]
        exact ih
  | recordSuccessStep s hr ih =>
      rcases hst : getCircuitState s with _ | _ | _
      · rw [recordSuccess_closed cfg s hst]
        intro hs
        exact absurd hst hs
      · rw [recordSuccess_open cfg s hst]
        exact ih
      · rw [recordSuccess_halfopen cfg s hst]
        split
        · intro hs
          exact absurd rfl hs
        · intro _
          exact ih (by rw [hst]; decide)
  | recordFailureStep s now hr ih =>
      rw [recordFailure_eq cfg now s]
      split
      · rename_i hho
        intro _
        have hx := ih (by rw [hho]; decide)
        show cfg.failureThreshold ≤ s.failures.getD 0 + 1
        omega
      · rename_i hnho
        split
        · rename_i hth
          intro _
          show cfg.failureThreshold ≤ s.failures.getD 0 + 1
          exact hth
        · rename_i hnth
          intro hs
          have hx := ih hs
          show cfg.failureThreshold ≤ s.failures.getD 0 + 1
          omega
  | resetStep s hr ih =>
      intro hs
      exact absurd rfl hs

/-- C1 counterexample: a reachable OPEN store (one failure with threshold 1)
in which a further recordFailure refreshes openedAt from 100 to 200 — the
timeout clock is reset, refuting the claim that openedAt is untouched by
failures recorded while already OPEN. -/
theorem C1_counterexample :
    (let cfg : Config := ⟨1, 30000, 1⟩
     let s := recordFailure cfg 100 (initialStore ("https://api.example.com"))
     Reachable cfg ("https://api.example.com") s ∧
     getCircuitState s = .OPEN ∧
     s.openedAt = some 100 ∧
     getCircuitState (recordFailure cfg 200 s) = .OPEN ∧
     (recordFailure cfg 200 s).openedAt = some 200) :=
  ⟨Reachable.recordFailureStep _ 100 Reachable.init, by decide, by decide,
   by decide, by decide⟩

/-- C1 amended: in every reachable OPEN store, recordFailure increments the
failures count, stamps lastFailure with now and performs no state transition
(the state stays OPEN), but — because the incremented count has reached the
failure threshold in every reachable OPEN store — the openCircuit write
runs again, so openedAt is refreshed to now (the timeout clock restarts)
and successCount is reset to 0. -/
theorem C1_amended_open_failure (cfg : Config) (url : String) (s : Store)
    (now : Int) (hr : Reachable cfg url s) (hs : getCircuitState s = .OPEN) :
    (recordFailure cfg now s).failures = some (s.failures.getD 0 + 1) ∧
    (recordFailure cfg now s).lastFailure = some now ∧
    getCircuitState (recordFailure cfg now s) = .OPEN ∧
    (recordFailure cfg now s).openedAt = some now ∧
    (recordFailure cfg now s).successCount = some 0 := by
  have hge : cfg.failureThreshold ≤ s.failures.getD 0 :=
    reachable_failures_ge cfg url s hr (by rw [hs]; decide)
  have hth : cfg.failureThreshold ≤ s.failures.getD 0 + 1 := by omega
  have hnho : ¬(getCircuitState s = .HALF_OPEN) := by rw [hs]; decide
  rw [recordFailure_eq cfg now s, if_neg hnho, if_pos hth]
  exact ⟨rfl, rfl, rfl, rfl, rfl⟩

/-- Witness for the amended C1 at a concrete reachable OPEN store. -/
theorem C1_amended_witness :
    (let cfg : Config := ⟨1, 30000, 1⟩
     let s := recordFailure cfg 100 (initialStore ("https://api.example.com"))
     (recordFailure cfg 200 s).failures = some 2 ∧
     (recordFailure cfg 200 s).lastFailure = some 200 ∧
     getCircuitState (recordFailure cfg 200 s) = .OPEN ∧
     (recordFailure cfg 200 s).openedAt = some 200 ∧
     (recordFailure cfg 200 s).successCount = some 0) :=
  C1_amended_open_failure _ ("https://api.example.com") _ 200
    (Reachable.recordFailureStep _ 100 Reachable.init) (by decide)

/-- C4 counterexample: a reachable OPEN store whose openedAt key is present
but holds 0 (the opening failure happened at clock reading 0); with elapsed
time exactly timeoutMs the claim demands the transition to HALF_OPEN and a
true answer, but canProceed returns false and mutates nothing, because the
stored 0 is falsy. -/
theorem C4_counterexample :
    (let cfg : Config := ⟨1, 30000, 1⟩
     let s := recordFailure cfg 0 (initialStore ("https://api.example.com"))
     Reachable cfg ("https://api.example.com") s ∧
     getCircuitState s = .OPEN ∧
     s.openedAt = some 0 ∧
     cfg.timeoutMs ≤ 30000 - 0 ∧
     canProceed cfg 30000 s = (false, s)) :=
  ⟨Reachable.recordFailureStep _ 0 Reachable.init, by decide, by decide,
   by decide, by decide⟩

/-- C4 amended: for a breaker in state OPEN whose openedAt is present with a
nonzero value t: if now minus t has reached timeoutMs, canProceed
transitions the state to HALF_OPEN, resets successCount to 0 and returns
true; otherwise it returns false and mutates nothing.  (A stored timestamp
of exactly 0 is falsy and never expires; see the counterexample.) -/
theorem C4_amended_open_timeout (cfg : Config) (now t : Int) (s : Store)
    (hs : getCircuitState s = .OPEN) (ho : s.openedAt = some t) (ht : t ≠ 0) :
    (cfg.timeoutMs ≤ now - t → canProceed cfg now s = (true, { s with state := some .HALF_OPEN, successCount := some 0 })) ∧
    (now - t < cfg.timeoutMs → canProceed cfg now s = (false, s)) := by
  have hcan := canProceed_open cfg now s hs
  rw [ho] at hcan
  constructor
  · intro hel
    have hcond : truthy (some t) = true ∧ cfg.timeoutMs ≤ now - (some t : Option Int).getD 0 :=
      ⟨by simp [truthy, ht], by simpa using hel⟩
    rw [hcan, if_pos hcond, ho]
  · intro hel
    have hcond : ¬(truthy (some t) = true ∧ cfg.timeoutMs ≤ now - (some t : Option Int).getD 0) := by
      rintro ⟨-, h2⟩
      simp only [Option.getD_some] at h2
      omega
    rw [hcan, if_neg hcond]

/-- Witness for the amended C4 at a concrete OPEN store, in both the expired
and the not-yet-expired case. -/
theorem C4_amended_witness :
    (let s : Store := ⟨none, some .OPEN, some 5, some 400, some 1, some 500⟩
     canProceed ⟨5, 30000, 1⟩ 30500 s = (true, { s with state := some .HALF_OPEN, successCount := some 0 }) ∧
     canProceed ⟨5, 30000, 1⟩ 600 s = (false, s)) :=
  ⟨(C4_amended_open_timeout ⟨5, 30000, 1⟩ 30500 500 ⟨none, some .OPEN, some 5, some 400, some 1, some 500⟩ rfl rfl (by decide)).1 (by decide),
   (C4_amended_open_timeout ⟨5, 30000, 1⟩ 600 500 ⟨none, some .OPEN, some 5, some 400, some 1, some 500⟩ rfl rfl (by decide)).2 (by decide)⟩

/-- C7: Reset unconditionally sets state to CLOSED, failureCount to 0,
successCount to 0, lastFailureTimestamp to absent, and openedAtTimestamp to
absent, for every breaker state. -/
theorem C7_reset_unconditional (s : Store) :
    getCircuitState (resetCircuit s) = .CLOSED ∧
    (resetCircuit s).failures = some 0 ∧
    (resetCircuit s).successCount = some 0 ∧
    (resetCircuit s).lastFailure = none ∧
    (resetCircuit s).openedAt = none := by
  simp [resetCircuit, getCircuitState]

/-- C8: in state OPEN, RecordSuccess is a no-op: the store after the call is
exactly the store before it, so state, failureCount, successCount,
lastFailureTimestamp and openedAtTimestamp are all unchanged. -/
theorem C8_open_success_noop (cfg : Config) (s : Store)
    (hs : getCircuitState s = .OPEN) :
    recordSuccess cfg s = s := by
  simp [recordSuccess, hs]

/-- Witness for C8 at a concrete OPEN store. -/
theorem C8_open_success_noop_witness :
    (let s : Store := ⟨none, some .OPEN, some 5, some 100, some 0, some 100⟩
     recordSuccess ⟨5, 30000, 1⟩ s = s) :=
  C8_open_success_noop _ _ rfl

/-- C9: when every backing-store key is absent, reads take the documented
defaults: getCircuitState returns CLOSED, and getStats reports failures 0,
successCount 0, absent lastFailure and absent openedAt.  getStats is a pure
read of the store (it returns a Stats value and leaves no modified store),
so it mutates nothing. -/
theorem C9_absent_defaults (url : String) (cfg : Config) :
    getCircuitState emptyStore = .CLOSED ∧
    (getStats url cfg emptyStore).state = .CLOSED ∧
    (getStats url cfg emptyStore).failures = 0 ∧
    (getStats url cfg emptyStore).successCount = 0 ∧
    (getStats url cfg emptyStore).lastFailure = none ∧
    (getStats url cfg emptyStore).openedAt = none := by
  simp [getStats, getCircuitState, emptyStore]

/-- C10: if the stored state is OPEN but openedAt is absent or holds 0, then
canProceed returns false and leaves the store unchanged, for every clock
reading and every configuration — the timeout expiry cannot fire without a
truthy opening timestamp. -/
theorem C10_untruthy_openedAt_blocks (cfg : Config) (now : Int) (s : Store)
    (hstate : s.state = some .OPEN)
    (ho : s.openedAt = none ∨ s.openedAt = some 0) :
    canProceed cfg now s = (false, s) := by
  have hgs : getCircuitState s = .OPEN := by simp [getCircuitState, hstate]
  unfold canProceed
  rw [hgs]
  rcases ho with h | h <;> simp [h, truthy]

/-- Witness for C10 at a concrete store with openedAt stored as 0. -/
theorem C10_untruthy_openedAt_blocks_witness :
    (let s : Store := ⟨none, some .OPEN, some 5, none, none, some 0⟩
     canProceed ⟨5, 30000, 1⟩ 999999 s = (false, s)) :=
  C10_untruthy_openedAt_blocks _ _ _ rfl (Or.inr rfl)

/-- C6: in state HALF_OPEN, a single RecordFailure transitions the state to
OPEN, sets openedAt to the failure time, resets successCount to 0 and
increments failureCount (also stamping lastFailure) — for every
configuration, so no threshold comparison is involved. -/
theorem C6_halfopen_failure_reopens (cfg : Config) (now : Int) (s : Store)
    (hs : getCircuitState s = .HALF_OPEN) :
    getCircuitState (recordFailure cfg now s) = .OPEN ∧
    (recordFailure cfg now s).openedAt = some now ∧
    (recordFailure cfg now s).successCount = some 0 ∧
    (recordFailure cfg now s).failures = some (s.failures.getD 0 + 1) ∧
    (recordFailure cfg now s).lastFailure = some now := by
  have hs1 : s.state.getD .CLOSED = .HALF_OPEN := hs
  simp [recordFailure, openCircuit, getCircuitState, hs1]

/-- Every digit character produced from a value below 16 is a lowercase hex
digit. -/
theorem digitChar_safe (m : Nat) (h : m < 16) :
    isSafeChar (Nat.digitChar m) = true := by
  interval_cases m <;> decide

/-- toHexCore only ever prepends digit characters of values below 16, so it
preserves safety of the accumulated list. -/
theorem toHexCore_safe (fuel : Nat) : ∀ (n : Nat) (ds : List Char),
    (∀ c ∈ ds, isSafeChar c = true) →
    ∀ c ∈ toHexCore fuel n ds, isSafeChar c = true := by
  induction fuel with
  | zero =>
      intro n ds hds c hc
      simp only [toHexCore] at hc
      exact hds c hc
  | succ fuel ih =>
      intro n ds hds c hc
      simp only [toHexCore] at hc
      have hcons : ∀ x ∈ Nat.digitChar (n % 16) :: ds, isSafeChar x = true := by
        intro x hx
        rcases List.mem_cons.mp hx with h | h
        · subst h
          exact digitChar_safe _ (Nat.mod_lt _ (by omega))
        · exact hds x h
      by_cases h : n / 16 = 0
      · rw [if_pos h] at hc
        exact hcons c hc
      · rw [if_neg h] at hc
        exact ih _ _ hcons c hc

/-- Left-padding with the zero character preserves safety. -/
theorem padStart8_safe (l : List Char) (hl : ∀ c ∈ l, isSafeChar c = true) :
    ∀ c ∈ padStart8 l, isSafeChar c = true := by
  intro c hc
  rcases List.mem_append.mp hc with h | h
  · have hz := List.eq_of_mem_replicate h
    subst hz
    decide
  · exact hl c h

/-- Every character of a derived key is a lowercase hex digit. -/
theorem safeId_chars_safe (url : String) :
    ∀ c ∈ (safeId url).data, isSafeChar c = true := by
  intro c hc
  exact padStart8_safe _ (toHexCore_safe _ _ _ (by simp)) c hc

/-- C2 counterexample: two different identity strings whose derived
backing-store keys coincide, refuting the claim that different identities
always yield different derived keys. -/
theorem C2_counterexample :
    safeId ("Aa") = safeId ("BB") ∧ ("Aa" : String) ≠ ("BB" : String) := by
  exact ⟨rfl, by decide⟩

/-- C2 amended: the derivation is deterministic — the derived key is a
function of the identity alone, so equal identities give equal keys — and
every character of the derived key is a lowercase hexadecimal digit, hence
safe for the store's key namespace; distinct identities, however, may
collide on the same derived key. -/
theorem C2_amended_safeId_deterministic_safe (u v : String) (huv : u = v) :
    safeId u = safeId v ∧ ∀ c ∈ (safeId u).data, isSafeChar c = true := by
  constructor
  · rw [huv]
  · exact safeId_chars_safe u

/-- Witness for the amended C2 at a concrete identity. -/
theorem C2_amended_witness :
    safeId ("Aa") = safeId ("Aa") ∧
      ∀ c ∈ (safeId ("Aa")).data, isSafeChar c = true :=
  C2_amended_safeId_deterministic_safe ("Aa") ("Aa") rfl

/-- Witness for C6 at a concrete HALF_OPEN store. -/
theorem C6_halfopen_failure_reopens_witness :
    (let s : Store := ⟨none, some .HALF_OPEN, some 2, some 50, some 0, some 10⟩
     getCircuitState (recordFailure ⟨5, 30000, 1⟩ 60 s) = .OPEN ∧
     (recordFailure ⟨5, 30000, 1⟩ 60 s).openedAt = some 60 ∧
     (recordFailure ⟨5, 30000, 1⟩ 60 s).successCount = some 0 ∧
     (recordFailure ⟨5, 30000, 1⟩ 60 s).failures = some 3 ∧
     (recordFailure ⟨5, 30000, 1⟩ 60 s).lastFailure = some 60) :=
  C6_halfopen_failure_reopens ⟨5, 30000, 1⟩ 60 _ rfl

/-- A run of recordFailure calls distributes over list append. -/
theorem recordFailures_append (cfg : Config) (as bs : List Int) :
    ∀ s, recordFailures cfg (as ++ bs) s =
      recordFailures cfg bs (recordFailures cfg as s) := by
  induction as with
  | nil => intro s; rfl
  | cons a as ih =>
      intro s
      simp only [List.cons_append, recordFailures]
      exact ih _

/-- canProceed blocks on an OPEN store whose opening timestamp is too
recent (elapsed time below the timeout), whatever the stored value is. -/
theorem canProceed_open_blocked (cfg : Config) (now t : Int) (s : Store)
    (hs : getCircuitState s = .OPEN) (ho : s.openedAt = some t)
    (hel : now - t < cfg.timeoutMs) :
    canProceed cfg now s = (false, s) := by
  rw [canProceed_open cfg now s hs]
  rw [if_neg (by rintro ⟨-, h2⟩; rw [ho, Option.getD_some] at h2; omega)]

/-- While the failure threshold is not yet reached, a run of recordFailure
calls on a CLOSED store only counts: the state key, openedAt and
successCount are untouched and failures grows by the length of the run. -/
theorem closedRun (cfg : Config) (ts : List Int) :
    ∀ (s : Store) (k : Nat), getCircuitState s = .CLOSED → s.failures = some k →
    k + ts.length < cfg.failureThreshold →
    (recordFailures cfg ts s).state = s.state ∧
    (recordFailures cfg ts s).failures = some (k + ts.length) ∧
    (recordFailures cfg ts s).openedAt = s.openedAt ∧
    (recordFailures cfg ts s).successCount = s.successCount := by
  induction ts with
  | nil =>
      intro s k hs hf _
      simp [recordFailures, hf]
  | cons t ts ih =>
      intro s k hs hf hlt
      have hnho : ¬(getCircuitState s = .HALF_OPEN) := by rw [hs]; decide
      have hnth : ¬(cfg.failureThreshold ≤ s.failures.getD 0 + 1) := by
        rw [hf, Option.getD_some]
        simp only [List.length_cons] at hlt
        omega
      have hstep : recordFailure cfg t s = { s with failures := some (s.failures.getD 0 + 1), lastFailure := some t } := by
        rw [recordFailure_eq cfg t s, if_neg hnho, if_neg hnth]
      rw [hf, Option.getD_some] at hstep
      rw [recordFailures, hstep]
      obtain ⟨h1, h2, h3, h4⟩ := ih { s with failures := some (k + 1), lastFailure := some t } (k + 1) hs rfl (by simp only [List.length_cons] at hlt; omega)
      refine ⟨h1, ?_, h3, h4⟩
      rw [h2]
      have harith : k + 1 + ts.length = k + (t :: ts).length := by
        simp only [List.length_cons]
        omega
      rw [harith]

/-- C3: from a freshly created breaker (state CLOSED, failures 0), a run of
exactly failureThreshold consecutive recordFailure calls — at arbitrary
clock readings, the opening one at tLast — leaves the breaker OPEN with
openedAt stamped tLast and successCount 0, and a canProceed call made while
the elapsed time now - tLast is still below the positive timeout returns
false and changes nothing. -/
theorem C3_threshold_opens (cfg : Config) (url : String) (ts : List Int)
    (tLast now : Int) (hlen : ts.length + 1 = cfg.failureThreshold)
    (htpos : 0 < cfg.timeoutMs) (helapsed : now - tLast < cfg.timeoutMs) :
    getCircuitState (recordFailures cfg (ts ++ [tLast]) (initialStore url)) = .OPEN ∧
    (recordFailures cfg (ts ++ [tLast]) (initialStore url)).openedAt = some tLast ∧
    (recordFailures cfg (ts ++ [tLast]) (initialStore url)).successCount = some 0 ∧
    canProceed cfg now (recordFailures cfg (ts ++ [tLast]) (initialStore url)) = (false, recordFailures cfg (ts ++ [tLast]) (initialStore url)) := by
  obtain ⟨h1, h2, h3, h4⟩ := closedRun cfg ts (initialStore url) 0 rfl rfl (by omega)
  have hs0 : getCircuitState (recordFailures cfg ts (initialStore url)) = .CLOSED := by
    unfold getCircuitState
    rw [h1]
    rfl
  have hnho : ¬(getCircuitState (recordFailures cfg ts (initialStore url)) = .HALF_OPEN) := by
    rw [hs0]
    decide
  have hth : cfg.failureThreshold ≤ (recordFailures cfg ts (initialStore url)).failures.getD 0 + 1 := by
    rw [h2, Option.getD_some]
    omega
  have hrw : recordFailures cfg (ts ++ [tLast]) (initialStore url) = openCircuit tLast { recordFailures cfg ts (initialStore url) with failures := some ((recordFailures cfg ts (initialStore url)).failures.getD 0 + 1), lastFailure := some tLast } := by
    rw [recordFailures_append]
    show recordFailure cfg tLast (recordFailures cfg ts (initialStore url)) = _
    rw [recordFailure_eq _ tLast _, if_neg hnho, if_pos hth]
  rw [hrw]
  exact ⟨rfl, rfl, rfl, canProceed_open_blocked cfg now tLast _ rfl rfl helapsed⟩

/-- Witness for C3: threshold 2, timeout 100, failures at clock 10 and 20,
canProceed asked at clock 50. -/
theorem C3_threshold_opens_witness :
    (let cfg : Config := ⟨2, 100, 1⟩
     let r := recordFailures cfg ([10] ++ [20]) (initialStore ("https://api.example.com"))
     getCircuitState r = .OPEN ∧ r.openedAt = some 20 ∧ r.successCount = some 0 ∧
     canProceed cfg 50 r = (false, r)) :=
  C3_threshold_opens ⟨2, 100, 1⟩ ("https://api.example.com") [10] 20 50 rfl
    (by decide) (by decide)

/-- resetCircuit always yields the fully reset store contents. -/
theorem resetCircuit_fullyReset (s : Store) : FullyReset (resetCircuit s) :=
  ⟨rfl, rfl, rfl, rfl, rfl⟩

/-- A success recorded on a fully reset (hence CLOSED) store keeps it fully
reset. -/
theorem recordSuccess_fullyReset (cfg : Config) (s : Store) (h : FullyReset s) :
    FullyReset (recordSuccess cfg s) := by
  obtain ⟨h1, h2, h3, h4, h5⟩ := h
  rw [recordSuccess_closed cfg s h1]
  exact ⟨h1, rfl, h3, rfl, h5⟩

/-- Any number of successes recorded on a fully reset store keep it fully
reset. -/
theorem recordSuccesses_fullyReset (cfg : Config) (n : Nat) :
    ∀ s, FullyReset s → FullyReset (recordSuccesses cfg n s) := by
  induction n with
  | zero => intro s h; exact h
  | succ n ih => intro s h; exact ih _ (recordSuccess_fullyReset cfg s h)

/-- A run of at least one recordSuccess on a HALF_OPEN store, long enough
for the success count to reach the half-open threshold, fully resets the
breaker. -/
theorem halfOpenRun (cfg : Config) :
    ∀ (n : Nat) (s : Store), getCircuitState s = .HALF_OPEN → 1 ≤ n →
    cfg.halfOpenSuccessThreshold ≤ s.successCount.getD 0 + n →
    FullyReset (recordSuccesses cfg n s) := by
  intro n
  induction n with
  | zero =>
      intro s _ h1 _
      exact absurd h1 (by decide)
  | succ n ih =>
      intro s hs _ hth
      show FullyReset (recordSuccesses cfg n (recordSuccess cfg s))
      rw [recordSuccess_halfopen cfg s hs]
      by_cases hc : cfg.halfOpenSuccessThreshold ≤ s.successCount.getD 0 + 1
      · rw [if_pos hc]
        exact recordSuccesses_fullyReset cfg n _ (resetCircuit_fullyReset _)
      · rw [if_neg hc]
        have hn : 1 ≤ n := by omega
        exact ih { s with successCount := some (s.successCount.getD 0 + 1) } hs hn (by rw [Option.getD_some]; omega)

/-- C5: from any HALF_OPEN store, a run of halfOpenSuccessThreshold
recordSuccess calls with no intervening failures or resets fully resets the
breaker (the configured threshold is a positive integer): state CLOSED,
failures 0, successCount 0, lastFailure absent, openedAt absent. -/
theorem C5_halfopen_recovery (cfg : Config) (s : Store)
    (hs : getCircuitState s = .HALF_OPEN)
    (hpos : 1 ≤ cfg.halfOpenSuccessThreshold) :
    getCircuitState (recordSuccesses cfg cfg.halfOpenSuccessThreshold s) = .CLOSED ∧
    (recordSuccesses cfg cfg.halfOpenSuccessThreshold s).failures = some 0 ∧
    (recordSuccesses cfg cfg.halfOpenSuccessThreshold s).successCount = some 0 ∧
    (recordSuccesses cfg cfg.halfOpenSuccessThreshold s).lastFailure = none ∧
    (recordSuccesses cfg cfg.halfOpenSuccessThreshold s).openedAt = none :=
  halfOpenRun cfg cfg.halfOpenSuccessThreshold s hs hpos (by omega)

/-- Witness for C5 at a concrete HALF_OPEN store with threshold 2. -/
theorem C5_halfopen_recovery_witness :
    (let cfg : Config := ⟨5, 30000, 2⟩
     let s : Store := ⟨none, some .HALF_OPEN, some 3, some 50, some 0, some 10⟩
     getCircuitState (recordSuccesses cfg 2 s) = .CLOSED ∧
     (recordSuccesses cfg 2 s).failures = some 0 ∧
     (recordSuccesses cfg 2 s).successCount = some 0 ∧
     (recordSuccesses cfg 2 s).lastFailure = none ∧
     (recordSuccesses cfg 2 s).openedAt = none) :=
  C5_halfopen_recovery ⟨5, 30000, 2⟩ ⟨none, some .HALF_OPEN, some 3, some 50, some 0, some 10⟩ rfl (by decide)

end CircuitBreaker
